import Mathlib

/-!
Verification development for the Low-Latency-101 static latency-analysis
engine.  The Python sources are shallowly embedded as Lean functions:

* `severity_from_issue`, `compute_risk`, `gate_for_risk` embed
  `services/worker/worker.py`;
* the `Py` namespace embeds the AST-walking `PythonDetector` from
  `core/latency_engine/detectors.py`;
* `engineAnalyze` embeds `latency_engine/engine.py`'s
  `LatencyAnalyzer.analyze` pipeline;
* `scanStep`/`scanLoop` embed the byte-budgeted fetch loop of
  `_analyze_github_repo` in `services/worker/worker.py`.

External collaborators (the `re` regex engine, the semgrep subprocess, the
GitHub fetch service, the per-file analyzer invocation, the LLM) are passed
in as oracle parameters, exactly at the call boundaries where the Python
code invokes them.
-/

namespace LowLatency

/-- One detected issue, as produced by all detection stages
(`{"rule": ..., "message": ..., "penalty": ...}` dicts in the source). -/
structure Issue where
  rule : String
  message : String
  penalty : Int
deriving DecidableEq, Repr

/-- Sum of the `penalty` fields of a list of issues. -/
def sumPenalties (issues : List Issue) : Int :=
  (issues.map Issue.penalty).sum

/-- The sub-list of issues carrying a given penalty (used to isolate the
penalty-8 generic hot-loop issues and the penalty-10 regex-compile
issues, which are the only issue kinds with those penalties). -/
def issuesWithPenalty (p : Int) (issues : List Issue) : List Issue :=
  issues.filter (fun i => i.penalty == p)

/-! ## worker.py: severity derivation, risk aggregation, release gate -/

/-- Python's `str.lower()` (per character). -/
def pyLower (s : String) : String := ⟨s.data.map Char.toLower⟩

/-- Python's `str.strip()`: drop leading and trailing whitespace. -/
def pyStrip (s : String) : String :=
  ⟨((s.data.dropWhile Char.isWhitespace).reverse.dropWhile Char.isWhitespace).reverse⟩

/-- A static issue as consumed by `_severity_from_issue`: an optional
explicit `severity` field plus a `penalty`. -/
structure WorkerIssue where
  severity : Option String
  penalty : Int
deriving DecidableEq, Repr

/-- `worker.py::_severity_from_issue`: explicit `major`/`minor` (after
lowercasing and stripping) wins; otherwise derived from the penalty. -/
def severity_from_issue (issue : WorkerIssue) : String :=
  let sev := pyStrip (pyLower (issue.severity.getD ""))
  if sev = "major" ∨ sev = "minor" then sev
  else if issue.penalty ≥ 10 then "major"
  else if issue.penalty ≥ 6 then "minor"
  else "info"

/-- The `static_results` argument of `compute_risk` (only its `issues`
key is read). -/
structure StaticResults where
  issues : List WorkerIssue
deriving DecidableEq, Repr

/-- The `gpt_results` argument of `compute_risk` (only the two issue
lists are read; their elements are opaque to the risk computation). -/
structure GptResults where
  major_issues : List String
  minor_issues : List String
deriving DecidableEq, Repr

/-- `worker.py::compute_risk`: per-issue points by severity, plus 20/10
points per LLM major/minor issue, clamped to 100.  `None` inputs are
treated as empty, mirroring `(static_results or {}).get("issues", [])`
and the `if gpt_results and gpt_results.get(...)` guards. -/
def compute_risk (static_results : Option StaticResults)
    (gpt_results : Option GptResults) : Int :=
  let static_issues := match static_results with
    | some s => s.issues
    | none => []
  let score := static_issues.foldl
    (fun score item =>
      let sev := severity_from_issue item
      if sev = "major" then score + 20
      else if sev = "minor" then score + 10
      else score + 5) 0
  let score := match gpt_results with
    | some g =>
      let score := if g.major_issues ≠ [] then score + 20 * (g.major_issues.length : Int) else score
      if g.minor_issues ≠ [] then score + 10 * (g.minor_issues.length : Int) else score
    | none => score
  min score 100

/-- `worker.py::_gate_for_risk`. -/
def gate_for_risk (risk_score : Int) : String :=
  if risk_score ≥ 70 then "FAIL"
  else if risk_score ≥ 35 then "WARN"
  else "PASS"

/-- Points claim C2's wording assigns to one static issue: "20 if its
severity is explicitly 'major' or its penalty ≥ 10, else 10 if its
severity is explicitly 'minor' or its penalty ≥ 6, else 5".  This is the
spec-side definition for the refinement comparison; the source-side
derivation is `severity_from_issue`. -/
def claimPointsC2 (issue : WorkerIssue) : Int :=
  let sev := pyStrip (pyLower (issue.severity.getD ""))
  if sev = "major" ∨ issue.penalty ≥ 10 then 20
  else if sev = "minor" ∨ issue.penalty ≥ 6 then 10
  else 5

/-- Risk score as claim C2 words it (spec-side definition). -/
def computeRiskSpecC2 (static_results : Option StaticResults)
    (gpt_results : Option GptResults) : Int :=
  let issues := match static_results with
    | some s => s.issues
    | none => []
  let major := match gpt_results with
    | some g => (g.major_issues.length : Int)
    | none => 0
  let minor := match gpt_results with
    | some g => (g.minor_issues.length : Int)
    | none => 0
  min 100 ((issues.map claimPointsC2).sum + 20 * major + 10 * minor)

/-- Points actually awarded by `compute_risk` for one static issue:
the explicit severity takes precedence over the penalty-derived one. -/
def sourcePoints (issue : WorkerIssue) : Int :=
  let sev := severity_from_issue issue
  if sev = "major" then 20
  else if sev = "minor" then 10
  else 5

/-- Closed form of `compute_risk` with the source's precedence. -/
def computeRiskClosed (static_results : Option StaticResults)
    (gpt_results : Option GptResults) : Int :=
  let issues := match static_results with
    | some s => s.issues
    | none => []
  let major := match gpt_results with
    | some g => (g.major_issues.length : Int)
    | none => 0
  let minor := match gpt_results with
    | some g => (g.minor_issues.length : Int)
    | none => 0
  min 100 ((issues.map sourcePoints).sum + 20 * major + 10 * minor)

/-! ## core/latency_engine/detectors.py: the AST-walking Python detector

The embedded syntax trees mirror the `ast` nodes the detector inspects.
`_in_loop` in the source walks `parent` back-references (established by
`generic_visit` before any child is visited) and reports whether any
ancestor is an `ast.For`/`ast.While`/`ast.AsyncFor`; the embedding carries
that fact down as an `inLoop` flag which is set for every child of a loop
node (header and body alike) and never cleared, which is exactly the
ancestor-chain semantics. -/

namespace Py

/-- Binary operators (only `ast.Add` is distinguished by the detector). -/
inductive BOp where
  | add
  | mult
  | other
deriving DecidableEq, Repr

/-- Embedded Python expressions (the `ast.expr` subset the detector
distinguishes; everything else only gets generically traversed). -/
inductive Expr where
  | name (id : String)
  | attr (value : Expr) (attrName : String)
  | call (func : Expr) (args : List Expr)
  | strLit (s : String)
  | joinedStr (values : List Expr)
  | listLit (elts : List Expr)
  | setLit (elts : List Expr)
  | dictLit (keys : List Expr) (values : List Expr)
  | constInt (n : Int)
  | binOp (left : Expr) (op : BOp) (right : Expr)

/-- Embedded Python statements. -/
inductive Stmt where
  | forStmt (target : Expr) (iter : Expr) (body : List Stmt)
  | asyncForStmt (target : Expr) (iter : Expr) (body : List Stmt)
  | whileStmt (test : Expr) (body : List Stmt)
  | assign (targets : List Expr) (value : Expr)
  | augAssign (target : Expr) (op : BOp) (value : Expr)
  | exprStmt (value : Expr)
  | funcDef (fname : String) (body : List Stmt)
  | passStmt

/-- The `parts` list built by `PythonDetector._qualname`'s while-loop
(attribute names innermost-last, then the base `Name` id if present). -/
def attrChain : Expr → List String
  | .attr v a => a :: attrChain v
  | .name id => [id]
  | _ => []

/-- `PythonDetector._qualname`. -/
def qualname : Expr → String
  | .name id => id
  | .attr v a => String.intercalate "." (attrChain (.attr v a)).reverse
  | _ => ""

/-- The deny-list of qualified names flagged inside hot loops
(`visit_Call`). -/
def hotLoopDenylist : List String :=
  ["print", "logging.debug", "logging.info", "logging.warning",
   "logging.error", "logging.critical", "time.sleep", "subprocess.run",
   "subprocess.Popen", "os.system", "json.dumps", "json.loads",
   "re.compile", "open", "requests.get", "requests.post"]

/-- The generic hot-loop issue emitted by `visit_Call` (penalty 8). -/
def hotLoopIssue (funcName : String) : Issue :=
  { rule := "Call to " ++ funcName ++ " in hot loop"
  , message := "Avoid calling `" ++ funcName ++ "` inside loops. Batch or hoist outside."
  , penalty := 8 }

/-- The regex-compile-specific issue emitted by `visit_Call` (penalty 10). -/
def regexCompileIssue : Issue :=
  { rule := "Regex compile in loop"
  , message := "Move re.compile outside the loop and reuse the pattern."
  , penalty := 10 }

/-- Issue emitted by `visit_Assign` for container literals in loops. -/
def containerAllocIssue : Issue :=
  { rule := "Container allocation inside loop"
  , message := "Avoid allocating lists/sets/dicts in loops; reuse or preallocate."
  , penalty := 7 }

/-- Issue emitted by `visit_AugAssign` for string concatenation in loops. -/
def stringConcatIssue : Issue :=
  { rule := "String concatenation in loop"
  , message := "Use list-join or io.StringIO for building strings in loops."
  , penalty := 6 }

/-- Issue emitted by `_regex_fallback` when the AST parse failed. -/
def printFallbackIssue : Issue :=
  { rule := "print usage"
  , message := "Printing can be slow in hot paths."
  , penalty := 4 }

/-- The `positive_by_call` table of `visit_Call`. -/
def positiveByCall (funcName : String) : Option String :=
  if funcName = "numpy.array" then some "NumPy arrays used"
  else if funcName = "numpy.frombuffer" then some "Zero-copy NumPy frombuffer"
  else if funcName = "memoryview" then some "memoryview for zero-copy slicing"
  else if funcName = "bytearray" then some "bytearray for mutable bytes"
  else if funcName = "selectors.DefaultSelector" then some "Using selectors for I/O multiplexing"
  else if funcName = "asyncio.get_running_loop" then some "AsyncIO event loop in use"
  else none

/-- `DetectorResult` from detectors.py: an ordered issue list plus an
ordered positive-signal list. -/
structure DetectorResult where
  issues : List Issue
  positive_signals : List String
deriving DecidableEq, Repr

/-- Appending two partial detector results (the source mutates one
shared `self.res` in traversal order). -/
def DetectorResult.append (a b : DetectorResult) : DetectorResult :=
  ⟨a.issues ++ b.issues, a.positive_signals ++ b.positive_signals⟩

instance : Append DetectorResult := ⟨DetectorResult.append⟩

/-- The empty detector result. -/
def DetectorResult.empty : DetectorResult := ⟨[], []⟩

/-- `isinstance(value, (ast.List, ast.Set, ast.Dict))` in `visit_Assign`. -/
def isContainerLit : Expr → Bool
  | .listLit _ => true
  | .setLit _ => true
  | .dictLit _ _ => true
  | _ => false

/-- `isinstance(value, (ast.Str, ast.JoinedStr))` in `visit_AugAssign`. -/
def isStrNode : Expr → Bool
  | .strLit _ => true
  | .joinedStr _ => true
  | _ => false

/-- `isinstance(target, ast.Name)` in `visit_AugAssign`. -/
def isNameNode : Expr → Bool
  | .name _ => true
  | _ => false

/-- Issues and signals emitted for one `Call` node by `visit_Call`
before descending into its children. -/
def callNodeResult (inLoop : Bool) (funcName : String) : DetectorResult :=
  { issues :=
      (if inLoop ∧ funcName ∈ hotLoopDenylist then [hotLoopIssue funcName] else []) ++
      (if inLoop ∧ funcName = "re.compile" then [regexCompileIssue] else [])
  , positive_signals :=
      match positiveByCall funcName with
      | some s => [s]
      | none => [] }

mutual

/-- The visitor over expressions.  `inLoop` is `_in_loop` of the node. -/
def visitExpr (inLoop : Bool) : Expr → DetectorResult
  | .name _ => DetectorResult.empty
  | .attr v _ => visitExpr inLoop v
  | .call f args =>
      DetectorResult.append (callNodeResult inLoop (qualname f))
        (DetectorResult.append (visitExpr inLoop f) (visitExprList inLoop args))
  | .strLit _ => DetectorResult.empty
  | .joinedStr vs => visitExprList inLoop vs
  | .listLit es => visitExprList inLoop es
  | .setLit es => visitExprList inLoop es
  | .dictLit ks vs =>
      DetectorResult.append (visitExprList inLoop ks) (visitExprList inLoop vs)
  | .constInt _ => DetectorResult.empty
  | .binOp l _ r =>
      DetectorResult.append (visitExpr inLoop l) (visitExpr inLoop r)

/-- Child-order traversal of an expression list. -/
def visitExprList (inLoop : Bool) : List Expr → DetectorResult
  | [] => DetectorResult.empty
  | e :: es => DetectorResult.append (visitExpr inLoop e) (visitExprList inLoop es)

end

mutual

/-- The visitor over statements.  Children of a `for`/`while`/async-for
node (header expressions and body alike) have that loop as parent, so
they are visited with `inLoop := true`. -/
def visitStmt (inLoop : Bool) : Stmt → DetectorResult
  | .forStmt target iter body =>
      DetectorResult.append (visitExpr true target)
        (DetectorResult.append (visitExpr true iter) (visitStmtList true body))
  | .asyncForStmt target iter body =>
      DetectorResult.append (visitExpr true target)
        (DetectorResult.append (visitExpr true iter) (visitStmtList true body))
  | .whileStmt test body =>
      DetectorResult.append (visitExpr true test) (visitStmtList true body)
  | .assign targets value =>
      DetectorResult.append
        ⟨if inLoop ∧ isContainerLit value then [containerAllocIssue] else [], []⟩
        (DetectorResult.append (visitExprList inLoop targets) (visitExpr inLoop value))
  | .augAssign target op value =>
      DetectorResult.append
        ⟨if inLoop ∧ op = .add ∧ isNameNode target ∧ isStrNode value
          then [stringConcatIssue] else [], []⟩
        (DetectorResult.append (visitExpr inLoop target) (visitExpr inLoop value))
  | .exprStmt e => visitExpr inLoop e
  | .funcDef _ body => visitStmtList inLoop body
  | .passStmt => DetectorResult.empty

/-- Child-order traversal of a statement list. -/
def visitStmtList (inLoop : Bool) : List Stmt → DetectorResult
  | [] => DetectorResult.empty
  | s :: ss => DetectorResult.append (visitStmt inLoop s) (visitStmtList inLoop ss)

end

/-- The positive import patterns scanned by
`_scan_imports_for_positive_signals` (regex text, label). -/
def positivePatterns : List (String × String) :=
  [ ("\\bimport\\s+uvloop\\b|\\bfrom\\s+uvloop\\s+import\\b", "uvloop event loop (fast asyncio)"),
    ("\\bimport\\s+numpy\\b|\\bfrom\\s+numpy\\s+import\\b", "NumPy (vectorized ops)"),
    ("\\bfrom\\s+numba\\s+import\\s+jit\\b|@jit\\b", "Numba JIT accelerators"),
    ("\\bfrom\\s+multiprocessing\\s+import\\s+shared_memory\\b", "Shared memory (zero-copy IPC)"),
    ("\\bimport\\s+mmap\\b", "mmap (file-backed memory)"),
    ("\\bfrom\\s+collections\\s+import\\s+deque\\b", "collections.deque (amortized O(1))"),
    ("\\bimport\\s+selectors\\b", "selectors (efficient I/O multiplexing)") ]

/-- The regex used by `_regex_fallback`. -/
def printCallPattern : String := "\\bprint\\s*\\("

/-- `_scan_imports_for_positive_signals`, with `re.search` over the raw
snippet text abstracted as the oracle `reSearch` (pattern ↦ matched?). -/
def scanImports (reSearch : String → Bool) : List String :=
  positivePatterns.filterMap (fun p => if reSearch p.1 then some p.2 else none)

/-- `PythonDetector._regex_fallback`. -/
def regexFallback (reSearch : String → Bool) : List Issue :=
  if reSearch printCallPattern then [printFallbackIssue] else []

/-- `PythonDetector.analyze`.  `tree` is the outcome of the guarded
`ast.parse` in `__init__` (`none` when parsing raised); `reSearch` is the
`re.search` oracle over the raw snippet text. -/
def analyze (reSearch : String → Bool) (tree : Option (List Stmt)) : DetectorResult :=
  let base : DetectorResult := ⟨[], scanImports reSearch⟩
  match tree with
  | some stmts => DetectorResult.append base (visitStmtList false stmts)
  | none => DetectorResult.append base ⟨regexFallback reSearch, []⟩

mutual

/-- Qualified names of deny-listed calls whose `_in_loop` is true, in
traversal order (specification-side count for claims C4/C5). -/
def loopDenyCallsExpr (inLoop : Bool) : Expr → List String
  | .name _ => []
  | .attr v _ => loopDenyCallsExpr inLoop v
  | .call f args =>
      (if inLoop ∧ qualname f ∈ hotLoopDenylist then [qualname f] else []) ++
      loopDenyCallsExpr inLoop f ++ loopDenyCallsListE inLoop args
  | .strLit _ => []
  | .joinedStr vs => loopDenyCallsListE inLoop vs
  | .listLit es => loopDenyCallsListE inLoop es
  | .setLit es => loopDenyCallsListE inLoop es
  | .dictLit ks vs => loopDenyCallsListE inLoop ks ++ loopDenyCallsListE inLoop vs
  | .constInt _ => []
  | .binOp l _ r => loopDenyCallsExpr inLoop l ++ loopDenyCallsExpr inLoop r

def loopDenyCallsListE (inLoop : Bool) : List Expr → List String
  | [] => []
  | e :: es => loopDenyCallsExpr inLoop e ++ loopDenyCallsListE inLoop es

end

mutual

def loopDenyCallsStmt (inLoop : Bool) : Stmt → List String
  | .forStmt target iter body =>
      loopDenyCallsExpr true target ++ loopDenyCallsExpr true iter ++
        loopDenyCallsListS true body
  | .asyncForStmt target iter body =>
      loopDenyCallsExpr true target ++ loopDenyCallsExpr true iter ++
        loopDenyCallsListS true body
  | .whileStmt test body =>
      loopDenyCallsExpr true test ++ loopDenyCallsListS true body
  | .assign targets value =>
      loopDenyCallsListE inLoop targets ++ loopDenyCallsExpr inLoop value
  | .augAssign target _ value =>
      loopDenyCallsExpr inLoop target ++ loopDenyCallsExpr inLoop value
  | .exprStmt e => loopDenyCallsExpr inLoop e
  | .funcDef _ body => loopDenyCallsListS inLoop body
  | .passStmt => []

def loopDenyCallsListS (inLoop : Bool) : List Stmt → List String
  | [] => []
  | s :: ss => loopDenyCallsStmt inLoop s ++ loopDenyCallsListS inLoop ss

end

/-- Qualified names of deny-listed calls lexically nested inside some
`for`/`while`/async-for construct (header or body) of a module. -/
def loopDenyCalls (stmts : List Stmt) : List String :=
  loopDenyCallsListS false stmts

mutual

/-- Claim-side notion for C4: deny-listed calls lexically inside the
BODY of some loop (header expressions do not count).  `inBody` is true
exactly when the node is nested in some loop's body list. -/
def bodyDenyCallsExpr (inBody : Bool) : Expr → List String
  | .name _ => []
  | .attr v _ => bodyDenyCallsExpr inBody v
  | .call f args =>
      (if inBody ∧ qualname f ∈ hotLoopDenylist then [qualname f] else []) ++
      bodyDenyCallsExpr inBody f ++ bodyDenyCallsListE inBody args
  | .strLit _ => []
  | .joinedStr vs => bodyDenyCallsListE inBody vs
  | .listLit es => bodyDenyCallsListE inBody es
  | .setLit es => bodyDenyCallsListE inBody es
  | .dictLit ks vs => bodyDenyCallsListE inBody ks ++ bodyDenyCallsListE inBody vs
  | .constInt _ => []
  | .binOp l _ r => bodyDenyCallsExpr inBody l ++ bodyDenyCallsExpr inBody r

def bodyDenyCallsListE (inBody : Bool) : List Expr → List String
  | [] => []
  | e :: es => bodyDenyCallsExpr inBody e ++ bodyDenyCallsListE inBody es

end

mutual

def bodyDenyCallsStmt (inBody : Bool) : Stmt → List String
  | .forStmt target iter body =>
      bodyDenyCallsExpr inBody target ++ bodyDenyCallsExpr inBody iter ++
        bodyDenyCallsListS true body
  | .asyncForStmt target iter body =>
      bodyDenyCallsExpr inBody target ++ bodyDenyCallsExpr inBody iter ++
        bodyDenyCallsListS true body
  | .whileStmt test body =>
      bodyDenyCallsExpr inBody test ++ bodyDenyCallsListS true body
  | .assign targets value =>
      bodyDenyCallsListE inBody targets ++ bodyDenyCallsExpr inBody value
  | .augAssign target _ value =>
      bodyDenyCallsExpr inBody target ++ bodyDenyCallsExpr inBody value
  | .exprStmt e => bodyDenyCallsExpr inBody e
  | .funcDef _ body => bodyDenyCallsListS inBody body
  | .passStmt => []

def bodyDenyCallsListS (inBody : Bool) : List Stmt → List String
  | [] => []
  | s :: ss => bodyDenyCallsStmt inBody s ++ bodyDenyCallsListS inBody ss

end

/-- Deny-listed calls lexically inside some loop body of a module. -/
def bodyDenyCalls (stmts : List Stmt) : List String :=
  bodyDenyCallsListS false stmts

mutual

/-- The `re.compile` calls whose `_in_loop` is true (one entry per such
call node, in traversal order). -/
def loopReCompileExpr (inLoop : Bool) : Expr → List String
  | .name _ => []
  | .attr v _ => loopReCompileExpr inLoop v
  | .call f args =>
      (if inLoop ∧ qualname f = "re.compile" then [qualname f] else []) ++
      loopReCompileExpr inLoop f ++ loopReCompileListE inLoop args
  | .strLit _ => []
  | .joinedStr vs => loopReCompileListE inLoop vs
  | .listLit es => loopReCompileListE inLoop es
  | .setLit es => loopReCompileListE inLoop es
  | .dictLit ks vs => loopReCompileListE inLoop ks ++ loopReCompileListE inLoop vs
  | .constInt _ => []
  | .binOp l _ r => loopReCompileExpr inLoop l ++ loopReCompileExpr inLoop r

def loopReCompileListE (inLoop : Bool) : List Expr → List String
  | [] => []
  | e :: es => loopReCompileExpr inLoop e ++ loopReCompileListE inLoop es

end

mutual

def loopReCompileStmt (inLoop : Bool) : Stmt → List String
  | .forStmt target iter body =>
      loopReCompileExpr true target ++ loopReCompileExpr true iter ++
        loopReCompileListS true body
  | .asyncForStmt target iter body =>
      loopReCompileExpr true target ++ loopReCompileExpr true iter ++
        loopReCompileListS true body
  | .whileStmt test body =>
      loopReCompileExpr true test ++ loopReCompileListS true body
  | .assign targets value =>
      loopReCompileListE inLoop targets ++ loopReCompileExpr inLoop value
  | .augAssign target _ value =>
      loopReCompileExpr inLoop target ++ loopReCompileExpr inLoop value
  | .exprStmt e => loopReCompileExpr inLoop e
  | .funcDef _ body => loopReCompileListS inLoop body
  | .passStmt => []

def loopReCompileListS (inLoop : Bool) : List Stmt → List String
  | [] => []
  | s :: ss => loopReCompileStmt inLoop s ++ loopReCompileListS inLoop ss

end

/-- The `re.compile` calls lexically nested inside some loop. -/
def loopReCompileCalls (stmts : List Stmt) : List String :=
  loopReCompileListS false stmts

/-- Counterexample module for C4: `for x in json.loads(s): pass` — the
deny-listed call sits in the loop HEADER (iterator expression), not in
any loop body. -/
def c4HeaderModule : List Stmt :=
  [ .forStmt (.name "x")
      (.call (.attr (.name "json") "loads") [.name "s"])
      [.passStmt] ]

/-- Module for C5: `for x in y: re.compile(p)`. -/
def c5Module : List Stmt :=
  [ .forStmt (.name "x") (.name "y")
      [.exprStmt (.call (.attr (.name "re") "compile") [.name "p"])] ]

/-- Counterexample module for C7: `for i in y: x = x + "a"` — a plain
assignment whose value is a `BinOp`, not an augmented assignment. -/
def c7AssignModule : List Stmt :=
  [ .forStmt (.name "i") (.name "y")
      [.assign [.name "x"] (.binOp (.name "x") .add (.strLit "a"))] ]

/-- Amended module for C7: `for i in y: x += "a"`. -/
def c7AugModule : List Stmt :=
  [ .forStmt (.name "i") (.name "y")
      [.augAssign (.name "x") .add (.strLit "a")] ]

/-- Module for C6's counterexample detector stage:
`for i in y: print(i)`. -/
def c6PrintLoopModule : List Stmt :=
  [ .forStmt (.name "i") (.name "y")
      [.exprStmt (.call (.name "print") [.name "i"])] ]

end Py

/-! ## latency_engine/engine.py: the pipeline composer -/

/-- One legacy regex rule as loaded by `load_rules`. -/
structure Rule where
  pattern : String
  rule : String
  message : String
  penalty : Int
deriving DecidableEq, Repr

/-- The result dict of `LatencyAnalyzer.analyze`
(`{"issues", "score", "signals": {"positive"}}`). -/
structure ScoredAnalysis where
  issues : List Issue
  score : Int
  positive : List String
deriving DecidableEq, Repr

/-- One stage's inner loop: for each stage issue, subtract its penalty
from the running score and append a `{rule, message, penalty}` record. -/
def stageFold (acc : Int × List Issue) (stageIssues : List Issue) : Int × List Issue :=
  stageIssues.foldl
    (fun st it =>
      (st.1 - it.penalty,
       st.2 ++ [{ rule := it.rule, message := it.message, penalty := it.penalty }]))
    acc

/-- The issue built from a matched legacy rule. -/
def ruleIssue (r : Rule) : Issue :=
  { rule := r.rule, message := r.message, penalty := r.penalty }

/-- `LatencyAnalyzer.analyze`.  `steps` is the parsed pipeline list;
`semgrepResult` is `run_semgrep`'s outcome (`none` when the tool is
unavailable); `detectorRes` is the language dispatch's outcome (`none`
for unsupported languages); `reSearchRule` is the `re.search` oracle for
the legacy rules (`false` also covers `re.error` patterns, which are
skipped).  The three stages run as three membership-guarded blocks in
the source's fixed textual order: semgrep, then detector, then regex. -/
def engineAnalyze (steps : List String) (semgrepResult : Option (List Issue))
    (detectorRes : Option Py.DetectorResult) (rules : List Rule)
    (reSearchRule : Rule → Bool) : ScoredAnalysis :=
  let st0 : Int × List Issue := (100, [])
  let st1 := if "semgrep" ∈ steps then
      match semgrepResult with
      | none => st0
      | some sgIssues => stageFold st0 sgIssues
    else st0
  let st2p := if "detector" ∈ steps then
      match detectorRes with
      | none => (st1, ([] : List String))
      | some d => (stageFold st1 d.issues, d.positive_signals)
    else (st1, ([] : List String))
  let st3 := if "regex" ∈ steps then
      rules.foldl
        (fun st r =>
          if reSearchRule r then (st.1 - r.penalty, st.2 ++ [ruleIssue r]) else st)
        st2p.1
    else st2p.1
  { issues := st3.2, score := max st3.1 0, positive := st2p.2 }

/-- Issues contributed by the semgrep stage (empty when the stage is not
configured or the tool is unavailable). -/
def sgIssuesOf (steps : List String) (semgrepResult : Option (List Issue)) : List Issue :=
  if "semgrep" ∈ steps then semgrepResult.getD [] else []

/-- Issues contributed by the detector stage. -/
def detIssuesOf (steps : List String) (detectorRes : Option Py.DetectorResult) : List Issue :=
  if "detector" ∈ steps then (detectorRes.map Py.DetectorResult.issues).getD [] else []

/-- Positive signals contributed by the detector stage. -/
def detPositivesOf (steps : List String) (detectorRes : Option Py.DetectorResult) : List String :=
  if "detector" ∈ steps then (detectorRes.map Py.DetectorResult.positive_signals).getD [] else []

/-- Issues contributed by the regex stage: one per matched rule, in rule
order. -/
def regexIssues (rules : List Rule) (reSearchRule : Rule → Bool) : List Issue :=
  rules.filterMap (fun r => if reSearchRule r then some (ruleIssue r) else none)

/-- Issues contributed by the regex stage when configured. -/
def regexIssuesOf (steps : List String) (rules : List Rule)
    (reSearchRule : Rule → Bool) : List Issue :=
  if "regex" ∈ steps then regexIssues rules reSearchRule else []

/-- The legacy rule used in C6's counterexample. -/
def c6Rule : Rule :=
  { pattern := "print", rule := "Pattern match", message := "Matched rule pattern.", penalty := 3 }

/-! ## worker.py::_analyze_github_repo: the byte-budgeted fetch loop -/

/-- The `/repo/file` payload fields the loop reads. -/
structure FilePayload where
  is_binary : Bool
  content : String
  bytes_returned : Int
deriving Repr

/-- The skip reasons recorded by the loop (rendered to the source's
strings by `SkipReason.render`). -/
inductive SkipReason where
  | totalByteCapReached
  | byteBudgetExhausted
  | fetchFailed (err : String)
  | binary
  | empty
  | unsupportedExtension
  | analysisFailed (err : String)
deriving DecidableEq, Repr

/-- The exact reason strings appended to `skipped_files` in the source. -/
def SkipReason.render : SkipReason → String
  | .totalByteCapReached => "total_byte_cap_reached"
  | .byteBudgetExhausted => "byte_budget_exhausted"
  | .fetchFailed e => "fetch_failed: " ++ e
  | .binary => "binary"
  | .empty => "empty"
  | .unsupportedExtension => "unsupported_extension"
  | .analysisFailed e => "analysis_failed: " ++ e

/-- The loop state: analyzed files (path, bytes), skipped files
(path, reason), and the running `total_bytes`. -/
structure ScanState where
  results : List (String × Int)
  skipped : List (String × SkipReason)
  totalBytes : Int
deriving Repr

/-- One iteration of the `for path in selected_files` loop in
`_analyze_github_repo`.  `fetch` is the `/repo/file` collaborator
(taking the path and the requested `max_bytes`), `languageFor` is
`_language_for_path`, and `analyzeFile` is the guarded
`analyzer.analyze(content)` call (language, content ↦ outcome). -/
def scanStep (maxTotal maxFile : Int)
    (fetch : String → Int → Except String FilePayload)
    (languageFor : String → Option String)
    (analyzeFile : String → String → Except String Unit)
    (st : ScanState) (path : String) : ScanState :=
  if st.totalBytes ≥ maxTotal then
    { st with skipped := st.skipped ++ [(path, .totalByteCapReached)] }
  else
    -- remaining_budget = max(MAX_TOTAL_FETCH_BYTES - total_bytes, 0);
    -- per_file_cap = min(MAX_FILE_FETCH_BYTES, remaining_budget), inlined
    if min maxFile (max (maxTotal - st.totalBytes) 0) ≤ 0 then
      { st with skipped := st.skipped ++ [(path, .byteBudgetExhausted)] }
    else
      match fetch path (min maxFile (max (maxTotal - st.totalBytes) 0)) with
      | .error e => { st with skipped := st.skipped ++ [(path, .fetchFailed e)] }
      | .ok payload =>
        if payload.is_binary then
          { st with skipped := st.skipped ++ [(path, .binary)] }
        else if pyStrip payload.content = "" then
          { st with skipped := st.skipped ++ [(path, .empty)] }
        else
          match languageFor path with
          | none => { st with skipped := st.skipped ++ [(path, .unsupportedExtension)] }
          | some lang =>
            match analyzeFile lang payload.content with
            | .error e => { st with skipped := st.skipped ++ [(path, .analysisFailed e)] }
            | .ok _ =>
              { results := st.results ++ [(path, payload.bytes_returned)]
              , skipped := st.skipped
              , totalBytes := st.totalBytes + payload.bytes_returned }

/-- The whole `for path in selected_files` loop. -/
def scanLoop (maxTotal maxFile : Int)
    (fetch : String → Int → Except String FilePayload)
    (languageFor : String → Option String)
    (analyzeFile : String → String → Except String Unit)
    (st : ScanState) (paths : List String) : ScanState :=
  paths.foldl (scanStep maxTotal maxFile fetch languageFor analyzeFile) st

/-! # Theorems -/

/-! ## Risk aggregation and gate (claims C2, C3) -/

lemma compute_risk_foldl (l : List WorkerIssue) (a : Int) :
    l.foldl
      (fun score item =>
        let sev := severity_from_issue item
        if sev = "major" then score + 20
        else if sev = "minor" then score + 10
        else score + 5) a = a + (l.map sourcePoints).sum := by
  induction l generalizing a with
  | nil => simp
  | cons x xs ih =>
    simp only [List.foldl_cons, List.map_cons, List.sum_cons, ih]
    unfold sourcePoints
    split_ifs <;> simp_all <;> ring

lemma compute_risk_eq_closed (s : Option StaticResults) (g : Option GptResults) :
    compute_risk s g = computeRiskClosed s g := by
  unfold compute_risk computeRiskClosed
  cases s with
  | none =>
    cases g with
    | none => simp [compute_risk_foldl]
    | some gv =>
      simp only [compute_risk_foldl]
      rcases h1 : gv.major_issues with _ | ⟨a, l⟩ <;>
        rcases h2 : gv.minor_issues with _ | ⟨b, m⟩ <;>
          simp [h1, h2, min_comm]
  | some sv =>
    cases g with
    | none => simp [compute_risk_foldl, min_comm]
    | some gv =>
      simp only [compute_risk_foldl]
      rcases h1 : gv.major_issues with _ | ⟨a, l⟩ <;>
        rcases h2 : gv.minor_issues with _ | ⟨b, m⟩ <;>
          simp [h1, h2, min_comm]

/-- C2 (counterexample): a static issue with explicit severity `minor`
and penalty 12.  The claim's wording awards it 20 points (penalty ≥ 10),
but `compute_risk` gives the explicit severity precedence and awards 10:
the claim's formula disagrees with the code on this input. -/
theorem claim_C2_counterexample :
    compute_risk (some ⟨[⟨some "minor", 12⟩]⟩) none = 10 ∧
    computeRiskSpecC2 (some ⟨[⟨some "minor", 12⟩]⟩) none = 20 ∧
    compute_risk (some ⟨[⟨some "minor", 12⟩]⟩) none ≠
      computeRiskSpecC2 (some ⟨[⟨some "minor", 12⟩]⟩) none := by
  refine ⟨?_, ?_, ?_⟩ <;> decide

/-- C2 (amended): for every pair of inputs, including `none` for either,
`compute_risk` returns `min 100 (Σ points + 20·#LLM-major + 10·#LLM-minor)`
where a static issue's points are 20 if its severity is explicitly
'major', 10 if explicitly 'minor', and otherwise 20 if its penalty ≥ 10,
10 if its penalty ≥ 6, else 5 (the explicit severity takes precedence
over the penalty-derived one); the function is total and treats
absent/`None` inputs as empty. -/
theorem claim_C2_amended (s : Option StaticResults) (g : Option GptResults) :
    compute_risk s g = computeRiskClosed s g :=
  compute_risk_eq_closed s g

/-- C3: the gate returns FAIL iff risk ≥ 70, WARN iff 35 ≤ risk < 70,
PASS iff risk < 35; 0 ↦ PASS, 40 ↦ WARN, 85 ↦ FAIL, and the boundary
pairs 34/35 and 69/70 switch the category. -/
theorem claim_C3_gate_thresholds (risk : Int) :
    (gate_for_risk risk = "FAIL" ↔ 70 ≤ risk) ∧
    (gate_for_risk risk = "WARN" ↔ 35 ≤ risk ∧ risk < 70) ∧
    (gate_for_risk risk = "PASS" ↔ risk < 35) ∧
    gate_for_risk 0 = "PASS" ∧ gate_for_risk 40 = "WARN" ∧
    gate_for_risk 85 = "FAIL" ∧ gate_for_risk 34 = "PASS" ∧
    gate_for_risk 35 = "WARN" ∧ gate_for_risk 69 = "WARN" ∧
    gate_for_risk 70 = "FAIL" := by
  refine ⟨?_, ?_, ?_, by decide, by decide, by decide, by decide,
    by decide, by decide, by decide⟩ <;>
  · unfold gate_for_risk
    split_ifs with h1 h2 <;> simp <;> omega

/-! ## The Python detector (claims C4, C5, C7, C8) -/

lemma issuesWithPenalty_append (p : Int) (a b : List Issue) :
    issuesWithPenalty p (a ++ b) = issuesWithPenalty p a ++ issuesWithPenalty p b := by
  simp [issuesWithPenalty]

lemma issuesWithPenalty_nil (p : Int) : issuesWithPenalty p [] = [] := rfl

lemma iWP8_hotLoop (q : String) :
    issuesWithPenalty 8 [Py.hotLoopIssue q] = [Py.hotLoopIssue q] := rfl

lemma iWP10_hotLoop (q : String) :
    issuesWithPenalty 10 [Py.hotLoopIssue q] = [] := rfl

lemma iWP8_rc : issuesWithPenalty 8 [Py.regexCompileIssue] = [] := rfl

lemma iWP10_rc :
    issuesWithPenalty 10 [Py.regexCompileIssue] = [Py.regexCompileIssue] := rfl

lemma iWP8_container : issuesWithPenalty 8 [Py.containerAllocIssue] = [] := rfl

lemma iWP10_container : issuesWithPenalty 10 [Py.containerAllocIssue] = [] := rfl

lemma iWP8_concat : issuesWithPenalty 8 [Py.stringConcatIssue] = [] := rfl

lemma iWP10_concat : issuesWithPenalty 10 [Py.stringConcatIssue] = [] := rfl

mutual

/-- Characterization of the penalty-8 and penalty-10 issues emitted for
one expression: exactly one generic hot-loop issue per deny-listed call
whose `_in_loop` holds, and exactly one regex-compile issue per
`re.compile` call whose `_in_loop` holds. -/
theorem penChar_expr : ∀ (inLoop : Bool) (e : Py.Expr),
    issuesWithPenalty 8 (Py.visitExpr inLoop e).issues
        = (Py.loopDenyCallsExpr inLoop e).map Py.hotLoopIssue ∧
      issuesWithPenalty 10 (Py.visitExpr inLoop e).issues
        = (Py.loopReCompileExpr inLoop e).map (fun _ => Py.regexCompileIssue)
  | inLoop, .name id => by
      simp [Py.visitExpr, Py.loopDenyCallsExpr, Py.loopReCompileExpr,
        Py.DetectorResult.empty, issuesWithPenalty]
  | inLoop, .attr v a => by
      have h := penChar_expr inLoop v
      simpa [Py.visitExpr, Py.loopDenyCallsExpr, Py.loopReCompileExpr] using h
  | inLoop, .call f args => by
      have hf := penChar_expr inLoop f
      have ha := penChar_elist inLoop args
      refine ⟨?_, ?_⟩ <;>
        simp [Py.visitExpr, Py.loopDenyCallsExpr, Py.loopReCompileExpr,
          Py.DetectorResult.append, Py.callNodeResult, issuesWithPenalty_append,
          List.map_append,
          apply_ite (issuesWithPenalty 8), apply_ite (issuesWithPenalty 10),
          apply_ite (List.map Py.hotLoopIssue),
          apply_ite (List.map (fun (_ : String) => Py.regexCompileIssue)),
          iWP8_hotLoop, iWP10_hotLoop, iWP8_rc, iWP10_rc, issuesWithPenalty_nil,
          hf.1, hf.2, ha.1, ha.2]
  | inLoop, .strLit s => by
      simp [Py.visitExpr, Py.loopDenyCallsExpr, Py.loopReCompileExpr,
        Py.DetectorResult.empty, issuesWithPenalty]
  | inLoop, .joinedStr vs => by
      have h := penChar_elist inLoop vs
      simpa [Py.visitExpr, Py.loopDenyCallsExpr, Py.loopReCompileExpr] using h
  | inLoop, .listLit es => by
      have h := penChar_elist inLoop es
      simpa [Py.visitExpr, Py.loopDenyCallsExpr, Py.loopReCompileExpr] using h
  | inLoop, .setLit es => by
      have h := penChar_elist inLoop es
      simpa [Py.visitExpr, Py.loopDenyCallsExpr, Py.loopReCompileExpr] using h
  | inLoop, .dictLit ks vs => by
      have hk := penChar_elist inLoop ks
      have hv := penChar_elist inLoop vs
      refine ⟨?_, ?_⟩ <;>
        simp [Py.visitExpr, Py.loopDenyCallsExpr, Py.loopReCompileExpr,
          Py.DetectorResult.append, issuesWithPenalty_append, List.map_append,
          hk.1, hk.2, hv.1, hv.2]
  | inLoop, .constInt n => by
      simp [Py.visitExpr, Py.loopDenyCallsExpr, Py.loopReCompileExpr,
        Py.DetectorResult.empty, issuesWithPenalty]
  | inLoop, .binOp l op r => by
      have hl := penChar_expr inLoop l
      have hr := penChar_expr inLoop r
      refine ⟨?_, ?_⟩ <;>
        simp [Py.visitExpr, Py.loopDenyCallsExpr, Py.loopReCompileExpr,
          Py.DetectorResult.append, issuesWithPenalty_append, List.map_append,
          hl.1, hl.2, hr.1, hr.2]

theorem penChar_elist : ∀ (inLoop : Bool) (es : List Py.Expr),
    issuesWithPenalty 8 (Py.visitExprList inLoop es).issues
        = (Py.loopDenyCallsListE inLoop es).map Py.hotLoopIssue ∧
      issuesWithPenalty 10 (Py.visitExprList inLoop es).issues
        = (Py.loopReCompileListE inLoop es).map (fun _ => Py.regexCompileIssue)
  | inLoop, [] => by
      simp [Py.visitExprList, Py.loopDenyCallsListE, Py.loopReCompileListE,
        Py.DetectorResult.empty, issuesWithPenalty]
  | inLoop, e :: es => by
      have he := penChar_expr inLoop e
      have hes := penChar_elist inLoop es
      refine ⟨?_, ?_⟩ <;>
        simp [Py.visitExprList, Py.loopDenyCallsListE, Py.loopReCompileListE,
          Py.DetectorResult.append, issuesWithPenalty_append, List.map_append,
          he.1, he.2, hes.1, hes.2]

end

mutual

/-- Statement-level version of `penChar_expr`. -/
theorem penChar_stmt : ∀ (inLoop : Bool) (s : Py.Stmt),
    issuesWithPenalty 8 (Py.visitStmt inLoop s).issues
        = (Py.loopDenyCallsStmt inLoop s).map Py.hotLoopIssue ∧
      issuesWithPenalty 10 (Py.visitStmt inLoop s).issues
        = (Py.loopReCompileStmt inLoop s).map (fun _ => Py.regexCompileIssue)
  | inLoop, .forStmt target iter body => by
      have ht := penChar_expr true target
      have hi := penChar_expr true iter
      have hb := penChar_slist true body
      refine ⟨?_, ?_⟩ <;>
        simp [Py.visitStmt, Py.loopDenyCallsStmt, Py.loopReCompileStmt,
          Py.DetectorResult.append, issuesWithPenalty_append, List.map_append,
          ht.1, ht.2, hi.1, hi.2, hb.1, hb.2]
  | inLoop, .asyncForStmt target iter body => by
      have ht := penChar_expr true target
      have hi := penChar_expr true iter
      have hb := penChar_slist true body
      refine ⟨?_, ?_⟩ <;>
        simp [Py.visitStmt, Py.loopDenyCallsStmt, Py.loopReCompileStmt,
          Py.DetectorResult.append, issuesWithPenalty_append, List.map_append,
          ht.1, ht.2, hi.1, hi.2, hb.1, hb.2]
  | inLoop, .whileStmt test body => by
      have ht := penChar_expr true test
      have hb := penChar_slist true body
      refine ⟨?_, ?_⟩ <;>
        simp [Py.visitStmt, Py.loopDenyCallsStmt, Py.loopReCompileStmt,
          Py.DetectorResult.append, issuesWithPenalty_append, List.map_append,
          ht.1, ht.2, hb.1, hb.2]
  | inLoop, .assign targets value => by
      have ht := penChar_elist inLoop targets
      have hv := penChar_expr inLoop value
      refine ⟨?_, ?_⟩ <;>
        simp [Py.visitStmt, Py.loopDenyCallsStmt, Py.loopReCompileStmt,
          Py.DetectorResult.append, issuesWithPenalty_append, List.map_append,
          apply_ite (issuesWithPenalty 8), apply_ite (issuesWithPenalty 10),
          iWP8_container, iWP10_container, issuesWithPenalty_nil,
          ht.1, ht.2, hv.1, hv.2]
  | inLoop, .augAssign target op value => by
      have ht := penChar_expr inLoop target
      have hv := penChar_expr inLoop value
      refine ⟨?_, ?_⟩ <;>
        simp [Py.visitStmt, Py.loopDenyCallsStmt, Py.loopReCompileStmt,
          Py.DetectorResult.append, issuesWithPenalty_append, List.map_append,
          apply_ite (issuesWithPenalty 8), apply_ite (issuesWithPenalty 10),
          iWP8_concat, iWP10_concat, issuesWithPenalty_nil,
          ht.1, ht.2, hv.1, hv.2]
  | inLoop, .exprStmt e => by
      have h := penChar_expr inLoop e
      simpa [Py.visitStmt, Py.loopDenyCallsStmt, Py.loopReCompileStmt] using h
  | inLoop, .funcDef fname body => by
      have h := penChar_slist inLoop body
      simpa [Py.visitStmt, Py.loopDenyCallsStmt, Py.loopReCompileStmt] using h
  | inLoop, .passStmt => by
      simp [Py.visitStmt, Py.loopDenyCallsStmt, Py.loopReCompileStmt,
        Py.DetectorResult.empty, issuesWithPenalty]

theorem penChar_slist : ∀ (inLoop : Bool) (ss : List Py.Stmt),
    issuesWithPenalty 8 (Py.visitStmtList inLoop ss).issues
        = (Py.loopDenyCallsListS inLoop ss).map Py.hotLoopIssue ∧
      issuesWithPenalty 10 (Py.visitStmtList inLoop ss).issues
        = (Py.loopReCompileListS inLoop ss).map (fun _ => Py.regexCompileIssue)
  | inLoop, [] => by
      simp [Py.visitStmtList, Py.loopDenyCallsListS, Py.loopReCompileListS,
        Py.DetectorResult.empty, issuesWithPenalty]
  | inLoop, s :: ss => by
      have hs := penChar_stmt inLoop s
      have hss := penChar_slist inLoop ss
      refine ⟨?_, ?_⟩ <;>
        simp [Py.visitStmtList, Py.loopDenyCallsListS, Py.loopReCompileListS,
          Py.DetectorResult.append, issuesWithPenalty_append, List.map_append,
          hs.1, hs.2, hss.1, hss.2]

end

lemma analyze_issues_some (reSearch : String → Bool) (tree : List Py.Stmt) :
    (Py.analyze reSearch (some tree)).issues = (Py.visitStmtList false tree).issues := by
  simp [Py.analyze, Py.DetectorResult.append]

/-- C4 (counterexample): in `for x in json.loads(s): pass` the
deny-listed call `json.loads` is in the loop HEADER (iterator
expression), hence inside no loop body — yet the detector, whose
`_in_loop` test walks the `parent` chain and stops at any enclosing
loop node, emits one generic penalty-8 hot-loop issue for it.  So the
claim's "flags the call only when it is lexically inside a
for/while/async-for body" is false as stated. -/
theorem claim_C4_counterexample :
    Py.bodyDenyCalls Py.c4HeaderModule = [] ∧
    issuesWithPenalty 8 (Py.analyze (fun _ => false) (some Py.c4HeaderModule)).issues
      = [Py.hotLoopIssue "json.loads"] := by
  constructor <;> rfl

/-- C4 (amended): the detector emits exactly one generic hot-loop issue
(penalty 8) per deny-listed call lexically nested inside a
`for`/`while`/async-for CONSTRUCT — header expressions included, not
only the body; a deny-listed call outside any loop construct produces
zero hot-loop issues. -/
theorem claim_C4_amended :
    (∀ (reSearch : String → Bool) (tree : List Py.Stmt),
      issuesWithPenalty 8 (Py.analyze reSearch (some tree)).issues
        = (Py.loopDenyCalls tree).map Py.hotLoopIssue) ∧
    (∀ q : String, (Py.hotLoopIssue q).penalty = 8) := by
  constructor
  · intro reSearch tree
    rw [analyze_issues_some]
    exact (penChar_slist false tree).1
  · intro q
    rfl

/-- C5: each `re.compile` call lexically inside a loop yields exactly
one penalty-10 regex-compile issue (first conjunct, for every module),
and on `for x in y: re.compile(p)` the whole output is exactly the
generic penalty-8 hot-loop issue plus the penalty-10 regex-compile
issue, for a combined penalty of 18. -/
theorem claim_C5_recompile_double :
    (∀ (reSearch : String → Bool) (tree : List Py.Stmt),
      issuesWithPenalty 10 (Py.analyze reSearch (some tree)).issues
        = (Py.loopReCompileCalls tree).map (fun _ => Py.regexCompileIssue)) ∧
    (Py.analyze (fun _ => false) (some Py.c5Module)).issues
      = [Py.hotLoopIssue "re.compile", Py.regexCompileIssue] ∧
    sumPenalties (Py.analyze (fun _ => false) (some Py.c5Module)).issues = 18 := by
  refine ⟨?_, ?_, ?_⟩
  · intro reSearch tree
    rw [analyze_issues_some]
    exact (penChar_slist false tree).2
  · rfl
  · rfl

/-- C7 (counterexample): `for i in y: x = x + "a"` is a plain
assignment whose value is a `BinOp`; `visit_Assign` only checks for
container literals and `visit_AugAssign` never fires, so the detector
emits NO issue at all — the claim's penalty-6 string-concatenation
issue does not appear. -/
theorem claim_C7_counterexample :
    (Py.analyze (fun _ => false) (some Py.c7AssignModule)).issues = [] := by
  rfl

/-- C7 (amended): it is the AUGMENTED assignment `x += <string literal>`
(a `Name` target, `Add` op, `Str`/`JoinedStr` value) lexically inside a
loop that makes the detector emit the string-concatenation issue with
penalty 6; the plain form `x = x + <string literal>` is not flagged. -/
theorem claim_C7_amended :
    (∀ (x s : String),
      (Py.visitStmt true (.augAssign (.name x) .add (.strLit s))).issues
        = [Py.stringConcatIssue]) ∧
    (Py.analyze (fun _ => false) (some Py.c7AugModule)).issues
      = [Py.stringConcatIssue] ∧
    Py.stringConcatIssue.penalty = 6 := by
  refine ⟨?_, ?_, ?_⟩
  · intro x s
    simp [Py.visitStmt, Py.visitExpr, Py.DetectorResult.append,
      Py.DetectorResult.empty, Py.isNameNode, Py.isStrNode]
  · rfl
  · rfl

/-- C8: when the `ast.parse` of the snippet fails (`tree = none`), the
detector still returns a `DetectorResult`: the issues are exactly the
reduced regex-only fallback scan's (at most the one penalty-4 print
issue) and the positive signals are the import scan's — for EVERY
regex-match oracle, i.e. every input text.  The embedding is a total
function, mirroring that the `try/except` around `ast.parse` makes the
failure non-fatal. -/
theorem claim_C8_parse_fallback (reSearch : String → Bool) :
    Py.analyze reSearch none
      = { issues := Py.regexFallback reSearch
        , positive_signals := Py.scanImports reSearch } ∧
    (Py.analyze reSearch none).issues.length ≤ 1 := by
  constructor
  · simp [Py.analyze, Py.DetectorResult.append]
  · by_cases h : reSearch Py.printCallPattern <;>
      simp [Py.analyze, Py.DetectorResult.append, Py.regexFallback, h]

/-! ## The pipeline composer (claims C1, C6) -/

lemma sumPenalties_cons (x : Issue) (xs : List Issue) :
    sumPenalties (x :: xs) = x.penalty + sumPenalties xs := by
  simp [sumPenalties]

lemma sumPenalties_append (a b : List Issue) :
    sumPenalties (a ++ b) = sumPenalties a + sumPenalties b := by
  simp [sumPenalties]

lemma stageFold_spec : ∀ (l : List Issue) (s : Int) (acc : List Issue),
    stageFold (s, acc) l = (s - sumPenalties l, acc ++ l)
  | [], s, acc => by simp [stageFold, sumPenalties]
  | x :: xs, s, acc => by
      have ih := stageFold_spec xs (s - x.penalty) (acc ++ [x])
      unfold stageFold at ih ⊢
      simp only [List.foldl_cons]
      rw [show (s - x.penalty, acc ++ [x]) =
            ((s, acc).1 - x.penalty,
             (s, acc).2 ++ [{ rule := x.rule, message := x.message, penalty := x.penalty }])
          from rfl] at ih
      rw [ih, sumPenalties_cons, Prod.mk.injEq]
      constructor
      · ring
      · simp

lemma regexFold_spec (m : Rule → Bool) :
    ∀ (rules : List Rule) (s : Int) (acc : List Issue),
    rules.foldl
      (fun st r => if m r then (st.1 - r.penalty, st.2 ++ [ruleIssue r]) else st)
      (s, acc)
      = (s - sumPenalties (regexIssues rules m), acc ++ regexIssues rules m)
  | [], s, acc => by simp [regexIssues, sumPenalties]
  | r :: rs, s, acc => by
      by_cases hm : m r
      · have ih := regexFold_spec m rs (s - r.penalty) (acc ++ [ruleIssue r])
        simp only [List.foldl_cons, if_pos hm]
        rw [ih]
        simp [regexIssues, hm, sumPenalties_cons, ruleIssue]
        ring
      · have ih := regexFold_spec m rs s acc
        simp only [List.foldl_cons, if_neg hm]
        rw [ih]
        simp [regexIssues, hm]

/-- Closed form of the pipeline: the three stages contribute their
issues in the source's fixed order (semgrep, detector, regex), and the
score is 100 minus all penalties, floored at 0. -/
lemma engineAnalyze_char (steps : List String) (sg : Option (List Issue))
    (det : Option Py.DetectorResult) (rules : List Rule) (m : Rule → Bool) :
    engineAnalyze steps sg det rules m =
      { issues := sgIssuesOf steps sg ++ detIssuesOf steps det ++
          regexIssuesOf steps rules m
      , score := max (100 - sumPenalties (sgIssuesOf steps sg ++
          detIssuesOf steps det ++ regexIssuesOf steps rules m)) 0
      , positive := detPositivesOf steps det } := by
  unfold engineAnalyze sgIssuesOf detIssuesOf detPositivesOf regexIssuesOf
  by_cases h1 : "semgrep" ∈ steps <;>
    by_cases h2 : "detector" ∈ steps <;>
      by_cases h3 : "regex" ∈ steps <;>
        cases sg <;> cases det <;>
          simp [h1, h2, h3, stageFold_spec, regexFold_spec,
            sumPenalties_append, sumPenalties] <;>
          ring_nf

/-- C1: for every pipeline configuration, language (through the
detector-dispatch outcome) and snippet (through the stage results), the
engine's score equals `max 0 (100 − Σ penalties of its own issues)` and
lies in `[0, 100]`, provided every semgrep/detector/rule penalty is
non-negative. -/
theorem claim_C1_score_bound (steps : List String) (sg : Option (List Issue))
    (det : Option Py.DetectorResult) (rules : List Rule) (m : Rule → Bool)
    (hsg : ∀ i ∈ sg.getD [], 0 ≤ i.penalty)
    (hdet : ∀ d, det = some d → ∀ i ∈ d.issues, 0 ≤ i.penalty)
    (hrules : ∀ r ∈ rules, 0 ≤ r.penalty) :
    (engineAnalyze steps sg det rules m).score
        = max 0 (100 - sumPenalties (engineAnalyze steps sg det rules m).issues) ∧
      0 ≤ (engineAnalyze steps sg det rules m).score ∧
      (engineAnalyze steps sg det rules m).score ≤ 100 := by
  have hnonneg : ∀ i ∈ (engineAnalyze steps sg det rules m).issues, 0 ≤ i.penalty := by
    rw [engineAnalyze_char]
    intro i hi
    simp only [List.mem_append] at hi
    rcases hi with (hi | hi) | hi
    · unfold sgIssuesOf at hi
      split at hi
      · exact hsg i hi
      · simp at hi
    · unfold detIssuesOf at hi
      split at hi
      · cases det with
        | none => simp at hi
        | some d => exact hdet d rfl i (by simpa using hi)
      · simp at hi
    · unfold regexIssuesOf at hi
      split at hi
      · unfold regexIssues at hi
        rw [List.mem_filterMap] at hi
        obtain ⟨r, hr, hir⟩ := hi
        by_cases hm : m r
        · simp [hm] at hir
          subst hir
          exact hrules r hr
        · simp [hm] at hir
      · simp at hi
  have hsum : 0 ≤ sumPenalties (engineAnalyze steps sg det rules m).issues := by
    unfold sumPenalties
    apply List.sum_nonneg
    intro x hx
    rw [List.mem_map] at hx
    obtain ⟨i, hi, rfl⟩ := hx
    exact hnonneg i hi
  refine ⟨?_, ?_, ?_⟩
  · conv_lhs => rw [engineAnalyze_char]
    conv_rhs => rw [engineAnalyze_char]
    exact max_comm _ _
  · rw [engineAnalyze_char]
    exact le_max_right _ _
  · rw [engineAnalyze_char] at hsum ⊢
    simp only [ScoredAnalysis.mk.injEq] at *
    omega

/-- Witness for C1 at a concrete input: the detector stage output of
`for i in y: print(i)` with no semgrep result and one non-matching rule. -/
theorem claim_C1_score_bound_witness :
    (engineAnalyze ["detector"] none
        (some (Py.analyze (fun _ => false) (some Py.c6PrintLoopModule))) [c6Rule]
        (fun _ => false)).score
        = max 0 (100 - sumPenalties (engineAnalyze ["detector"] none
            (some (Py.analyze (fun _ => false) (some Py.c6PrintLoopModule))) [c6Rule]
            (fun _ => false)).issues) ∧
      0 ≤ (engineAnalyze ["detector"] none
        (some (Py.analyze (fun _ => false) (some Py.c6PrintLoopModule))) [c6Rule]
        (fun _ => false)).score ∧
      (engineAnalyze ["detector"] none
        (some (Py.analyze (fun _ => false) (some Py.c6PrintLoopModule))) [c6Rule]
        (fun _ => false)).score ≤ 100 :=
  claim_C1_score_bound ["detector"] none
    (some (Py.analyze (fun _ => false) (some Py.c6PrintLoopModule))) [c6Rule]
    (fun _ => false)
    (by intro i hi; simp at hi)
    (by intro d hd i hi; cases hd; revert i hi; decide)
    (by intro r hr; simp at hr; subst hr; decide)

/-- C6 (counterexample): with the pipeline configured as
`regex+detector` (regex FIRST), a snippet whose detector stage emits the
hot-loop print issue, and a rule that matches, the output lists the
DETECTOR issue before the regex issue — the source runs its three
membership-guarded stage blocks in fixed textual order (semgrep,
detector, regex), not in configured order. -/
theorem claim_C6_counterexample :
    (engineAnalyze ["regex", "detector"] none
        (some (Py.analyze (fun _ => false) (some Py.c6PrintLoopModule))) [c6Rule]
        (fun _ => true)).issues
      = [Py.hotLoopIssue "print", ruleIssue c6Rule] ∧
    (engineAnalyze ["regex", "detector"] none
        (some (Py.analyze (fun _ => false) (some Py.c6PrintLoopModule))) [c6Rule]
        (fun _ => true)).issues
      ≠ [ruleIssue c6Rule, Py.hotLoopIssue "print"] := by
  constructor <;> decide

/-- C6 (amended): the configured pipeline list only selects WHICH stages
run (by membership); the stages always execute in the fixed order
semgrep, detector, regex, so the whole output — issue order included —
and in particular the final score are the same for every ordering (any
two configurations with the same stage membership). -/
theorem claim_C6_amended (steps steps' : List String) (sg : Option (List Issue))
    (det : Option Py.DetectorResult) (rules : List Rule) (m : Rule → Bool)
    (hsg : "semgrep" ∈ steps ↔ "semgrep" ∈ steps')
    (hdet : "detector" ∈ steps ↔ "detector" ∈ steps')
    (hregex : "regex" ∈ steps ↔ "regex" ∈ steps') :
    engineAnalyze steps sg det rules m = engineAnalyze steps' sg det rules m ∧
    (engineAnalyze steps sg det rules m).issues
        = sgIssuesOf steps sg ++ detIssuesOf steps det ++
            regexIssuesOf steps rules m ∧
    (engineAnalyze steps sg det rules m).score
        = (engineAnalyze steps' sg det rules m).score := by
  have e1 : sgIssuesOf steps sg = sgIssuesOf steps' sg := by
    unfold sgIssuesOf
    by_cases h : "semgrep" ∈ steps
    · simp [h, hsg.mp h]
    · simp [h, mt hsg.mpr h]
  have e2 : detIssuesOf steps det = detIssuesOf steps' det := by
    unfold detIssuesOf
    by_cases h : "detector" ∈ steps
    · simp [h, hdet.mp h]
    · simp [h, mt hdet.mpr h]
  have e3 : detPositivesOf steps det = detPositivesOf steps' det := by
    unfold detPositivesOf
    by_cases h : "detector" ∈ steps
    · simp [h, hdet.mp h]
    · simp [h, mt hdet.mpr h]
  have e4 : regexIssuesOf steps rules m = regexIssuesOf steps' rules m := by
    unfold regexIssuesOf
    by_cases h : "regex" ∈ steps
    · simp [h, hregex.mp h]
    · simp [h, mt hregex.mpr h]
  have hmain : engineAnalyze steps sg det rules m = engineAnalyze steps' sg det rules m := by
    rw [engineAnalyze_char, engineAnalyze_char, e1, e2, e3, e4]
  refine ⟨hmain, ?_, by rw [hmain]⟩
  rw [engineAnalyze_char]

/-- Witness for C6 (amended): `detector+regex` versus `regex+detector`
produce identical output on a concrete input. -/
theorem claim_C6_amended_witness :
    engineAnalyze ["detector", "regex"] none
        (some (Py.analyze (fun _ => false) (some Py.c6PrintLoopModule))) [c6Rule]
        (fun _ => true)
      = engineAnalyze ["regex", "detector"] none
          (some (Py.analyze (fun _ => false) (some Py.c6PrintLoopModule))) [c6Rule]
          (fun _ => true) :=
  (claim_C6_amended ["detector", "regex"] ["regex", "detector"] none
    (some (Py.analyze (fun _ => false) (some Py.c6PrintLoopModule))) [c6Rule]
    (fun _ => true) (by decide) (by decide) (by decide)).1

/-! ## The repository byte budget (claims C9, C10) -/

section Scan

variable (maxTotal maxFile : Int)
variable (fetch : String → Int → Except String FilePayload)
variable (languageFor : String → Option String)
variable (analyzeFile : String → String → Except String Unit)

lemma scanStep_total_le
    (hf : ∀ p cap pl, fetch p cap = Except.ok pl → pl.bytes_returned ≤ cap)
    (st : ScanState) (p : String)
    (h : st.totalBytes ≤ maxTotal) :
    (scanStep maxTotal maxFile fetch languageFor analyzeFile st p).totalBytes ≤ maxTotal := by
  unfold scanStep
  split
  · exact h
  · next h1 =>
    split
    · exact h
    · next h2 =>
      split
      · exact h
      · next payload heq =>
        have hb := hf _ _ _ heq
        split
        · exact h
        · split
          · exact h
          · split
            · exact h
            · split
              · exact h
              · show st.totalBytes + payload.bytes_returned ≤ maxTotal
                omega

lemma scanLoop_total_le
    (hf : ∀ p cap pl, fetch p cap = Except.ok pl → pl.bytes_returned ≤ cap) :
    ∀ (paths : List String) (st : ScanState), st.totalBytes ≤ maxTotal →
      (scanLoop maxTotal maxFile fetch languageFor analyzeFile st paths).totalBytes ≤ maxTotal
  | [], st, h => h
  | p :: ps, st, h => by
      have hstep := scanStep_total_le maxTotal maxFile fetch languageFor analyzeFile hf st p h
      exact scanLoop_total_le hf ps _ hstep

lemma scanLoop_capped :
    ∀ (paths : List String) (st : ScanState), maxTotal ≤ st.totalBytes →
      scanLoop maxTotal maxFile fetch languageFor analyzeFile st paths =
        { results := st.results
        , skipped := st.skipped ++ paths.map (fun p => (p, SkipReason.totalByteCapReached))
        , totalBytes := st.totalBytes }
  | [], st, h => by simp [scanLoop]
  | p :: ps, st, h => by
      have hstep : scanStep maxTotal maxFile fetch languageFor analyzeFile st p =
          { st with skipped := st.skipped ++ [(p, SkipReason.totalByteCapReached)] } := by
        unfold scanStep
        rw [if_pos (by omega)]
      have ih := scanLoop_capped ps
        { st with skipped := st.skipped ++ [(p, SkipReason.totalByteCapReached)] } (by simpa using h)
      simp only [scanLoop, List.foldl_cons] at ih ⊢
      rw [hstep, ih]
      simp

lemma scanStep_extends (st : ScanState) (p : String) :
    ∃ r s,
      (scanStep maxTotal maxFile fetch languageFor analyzeFile st p).results = st.results ++ r ∧
      (scanStep maxTotal maxFile fetch languageFor analyzeFile st p).skipped = st.skipped ++ s ∧
      (r.map Prod.fst ++ s.map Prod.fst = [p]) := by
  unfold scanStep
  split
  · exact ⟨[], [(p, .totalByteCapReached)], by simp, rfl, by simp⟩
  · split
    · exact ⟨[], [(p, .byteBudgetExhausted)], by simp, rfl, by simp⟩
    · split
      · next e heq => exact ⟨[], [(p, .fetchFailed e)], by simp, rfl, by simp⟩
      · next payload heq =>
        split
        · exact ⟨[], [(p, .binary)], by simp, rfl, by simp⟩
        · split
          · exact ⟨[], [(p, .empty)], by simp, rfl, by simp⟩
          · split
            · exact ⟨[], [(p, .unsupportedExtension)], by simp, rfl, by simp⟩
            · split
              · next e heq2 => exact ⟨[], [(p, .analysisFailed e)], by simp, rfl, by simp⟩
              · exact ⟨[(p, payload.bytes_returned)], [], rfl, by simp, by simp⟩

lemma scanLoop_extends :
    ∀ (paths : List String) (st : ScanState),
      ∃ r s,
        (scanLoop maxTotal maxFile fetch languageFor analyzeFile st paths).results
            = st.results ++ r ∧
        (scanLoop maxTotal maxFile fetch languageFor analyzeFile st paths).skipped
            = st.skipped ++ s
  | [], st => ⟨[], [], by simp [scanLoop], by simp [scanLoop]⟩
  | p :: ps, st => by
      obtain ⟨r1, s1, hr1, hs1, -⟩ :=
        scanStep_extends maxTotal maxFile fetch languageFor analyzeFile st p
      obtain ⟨r2, s2, hr2, hs2⟩ := scanLoop_extends ps
        (scanStep maxTotal maxFile fetch languageFor analyzeFile st p)
      refine ⟨r1 ++ r2, s1 ++ s2, ?_, ?_⟩ <;>
        simp only [scanLoop, List.foldl_cons] at hr2 hs2 ⊢ <;>
        simp [hr2, hs2, hr1, hs1]

lemma scanLoop_complete :
    ∀ (paths : List String) (st : ScanState) (p : String), p ∈ paths →
      p ∈ (scanLoop maxTotal maxFile fetch languageFor analyzeFile st paths).results.map Prod.fst ∨
      p ∈ (scanLoop maxTotal maxFile fetch languageFor analyzeFile st paths).skipped.map Prod.fst
  | [], st, p, hp => by simp at hp
  | q :: ps, st, p, hp => by
      rcases List.mem_cons.mp hp with rfl | hp
      · obtain ⟨r1, s1, hr1, hs1, hmem⟩ :=
          scanStep_extends maxTotal maxFile fetch languageFor analyzeFile st p
        obtain ⟨r2, s2, hr2, hs2⟩ := scanLoop_extends maxTotal maxFile fetch languageFor analyzeFile ps
          (scanStep maxTotal maxFile fetch languageFor analyzeFile st p)
        have hp' : p ∈ r1.map Prod.fst ++ s1.map Prod.fst := by
          rw [hmem]; simp
        simp only [scanLoop, List.foldl_cons] at hr2 hs2 ⊢
        rw [List.mem_append] at hp'
        rcases hp' with hmr | hms
        · left
          rw [hr2, hr1]
          simp only [List.map_append, List.mem_append]
          left; right; exact hmr
        · right
          rw [hs2, hs1]
          simp only [List.map_append, List.mem_append]
          left; right; exact hms
      · exact scanLoop_complete ps _ p hp

/-- C9: assuming the `/repo/file` collaborator returns at most the
requested `max_bytes` per file (and the total budget is non-negative,
as the default 900000 is), (1) the final `fetched_bytes` never exceeds
`MAX_TOTAL_FETCH_BYTES`; (2) from any state that has reached the
budget, EVERY remaining candidate file is recorded as skipped with
reason `total_byte_cap_reached` — not fetched; (3) no candidate file is
silently dropped: each ends up among the analyzed results or the
skipped records; (4) the recorded reason string is exactly
`total_byte_cap_reached`. -/
theorem claim_C9_byte_budget
    (hM : 0 ≤ maxTotal)
    (hf : ∀ p cap pl, fetch p cap = Except.ok pl → pl.bytes_returned ≤ cap)
    (paths : List String) :
    (scanLoop maxTotal maxFile fetch languageFor analyzeFile ⟨[], [], 0⟩ paths).totalBytes
        ≤ maxTotal ∧
      (∀ st : ScanState, maxTotal ≤ st.totalBytes →
        scanLoop maxTotal maxFile fetch languageFor analyzeFile st paths =
          { results := st.results
          , skipped := st.skipped ++ paths.map (fun p => (p, SkipReason.totalByteCapReached))
          , totalBytes := st.totalBytes }) ∧
      (∀ p ∈ paths,
        p ∈ (scanLoop maxTotal maxFile fetch languageFor analyzeFile
              ⟨[], [], 0⟩ paths).results.map Prod.fst ∨
        p ∈ (scanLoop maxTotal maxFile fetch languageFor analyzeFile
              ⟨[], [], 0⟩ paths).skipped.map Prod.fst) ∧
      SkipReason.render SkipReason.totalByteCapReached = "total_byte_cap_reached" :=
  ⟨scanLoop_total_le maxTotal maxFile fetch languageFor analyzeFile hf paths ⟨[], [], 0⟩ hM,
   fun st h => scanLoop_capped maxTotal maxFile fetch languageFor analyzeFile paths st h,
   fun p hp => scanLoop_complete maxTotal maxFile fetch languageFor analyzeFile paths ⟨[], [], 0⟩ p hp,
   rfl⟩

/-- Witness for C9 at the default budgets with an always-failing fetch
collaborator (which returns at most the requested bytes vacuously). -/
theorem claim_C9_byte_budget_witness :
    (scanLoop 900000 120000 (fun _ _ => Except.error "unreachable")
        (fun _ => some "python") (fun _ _ => Except.ok ())
        ⟨[], [], 0⟩ ["a.py", "b.py"]).totalBytes ≤ 900000 :=
  (claim_C9_byte_budget 900000 120000 (fun _ _ => Except.error "unreachable")
    (fun _ => some "python") (fun _ _ => Except.ok ())
    (by norm_num)
    (by intro p cap pl h; simp at h)
    ["a.py", "b.py"]).1

lemma skippedAppendCase (base : List (String × SkipReason)) (pr : String × SkipReason)
    (hpr : pr.2 ≠ SkipReason.byteBudgetExhausted) :
    ∀ qr ∈ base ++ [pr], qr ∈ base ∨ qr.2 ≠ SkipReason.byteBudgetExhausted := by
  intro qr hqr
  rcases List.mem_append.mp hqr with hq | hq
  · exact Or.inl hq
  · right
    rw [List.mem_singleton] at hq
    subst hq
    exact hpr

lemma scanStep_no_new_bbe (hF : 0 < maxFile) (st : ScanState) (p : String) :
    ∀ qr ∈ (scanStep maxTotal maxFile fetch languageFor analyzeFile st p).skipped,
      qr ∈ st.skipped ∨ qr.2 ≠ SkipReason.byteBudgetExhausted := by
  unfold scanStep
  split
  · exact skippedAppendCase st.skipped _ (by simp)
  · next h1 =>
    split
    · next h2 => exact absurd h2 (by omega)
    · next h2 =>
      split
      · next e heq => exact skippedAppendCase st.skipped _ (by simp)
      · next payload heq =>
        split
        · exact skippedAppendCase st.skipped _ (by simp)
        · split
          · exact skippedAppendCase st.skipped _ (by simp)
          · split
            · exact skippedAppendCase st.skipped _ (by simp)
            · split
              · next e heq2 => exact skippedAppendCase st.skipped _ (by simp)
              · exact fun qr hq => Or.inl hq

lemma scanLoop_no_exhausted (hF : 0 < maxFile) :
    ∀ (paths : List String) (st : ScanState),
      (∀ pr ∈ st.skipped, pr.2 ≠ SkipReason.byteBudgetExhausted) →
      ∀ pr ∈ (scanLoop maxTotal maxFile fetch languageFor analyzeFile st paths).skipped,
        pr.2 ≠ SkipReason.byteBudgetExhausted
  | [], st, hst, pr, hpr => hst pr hpr
  | p :: ps, st, hst, pr, hpr => by
      have hstep : ∀ qr ∈ (scanStep maxTotal maxFile fetch languageFor analyzeFile st p).skipped,
          qr.2 ≠ SkipReason.byteBudgetExhausted := by
        intro qr hq
        rcases scanStep_no_new_bbe maxTotal maxFile fetch languageFor analyzeFile hF st p qr hq
          with hin | hne
        · exact hst qr hin
        · exact hne
      exact scanLoop_no_exhausted hF ps _ hstep pr hpr

/-- C10: when the per-file cap `MAX_FILE_FETCH_BYTES` is positive (as
the default 120000 is), `per_file_cap ≤ 0` can only hold when
`total_bytes ≥ MAX_TOTAL_FETCH_BYTES`, which the preceding check
already turned into a `total_byte_cap_reached` skip — so the
`byte_budget_exhausted` branch is unreachable and no skip record ever
carries that reason. -/
theorem claim_C10_exhausted_unreachable (hF : 0 < maxFile) :
    (∀ t : Int, min maxFile (max (maxTotal - t) 0) ≤ 0 → maxTotal ≤ t) ∧
      (∀ (t : Int) (paths : List String),
        ∀ pr ∈ (scanLoop maxTotal maxFile fetch languageFor analyzeFile
            ⟨[], [], t⟩ paths).skipped,
          pr.2 ≠ SkipReason.byteBudgetExhausted) :=
  ⟨fun t ht => by omega,
   fun t paths pr hpr =>
     scanLoop_no_exhausted maxTotal maxFile fetch languageFor analyzeFile hF paths
       ⟨[], [], t⟩ (by intro qr hq; simp at hq) pr hpr⟩

/-- Witness for C10 at the default caps: the skip record produced for a
failing fetch of `a.py` does not carry the `byte_budget_exhausted`
reason. -/
theorem claim_C10_exhausted_unreachable_witness :
    ("a.py", SkipReason.fetchFailed "down").2 ≠ SkipReason.byteBudgetExhausted :=
  (claim_C10_exhausted_unreachable 900000 120000
    (fun _ _ => Except.error "down") (fun _ => some "python")
    (fun _ _ => Except.ok ()) (by norm_num)).2 0 ["a.py"]
    ("a.py", SkipReason.fetchFailed "down") (by decide)

end Scan

end LowLatency
